import Mathlib

/-!
Shallow embedding of the jito_grpc_client core (src/bundle.rs, src/client.rs,
src/nodes.rs, src/errors.rs) and proofs of the specification claims.
External effects (bincode serialization of an opaque transaction, RPC calls,
random draws, latency probes) are modelled as explicit oracle parameters.
-/

namespace JitoGrpcClient

/-- Error enumeration from src/errors.rs. Payload-carrying variants
(io::Error, bincode::Error, tonic errors) are modelled payload-free, since
only the variant identity is observable in the claims. -/
inductive JitoClientError where
  | MeasureLatencyError
  | AllRegionLatencyMissing
  | DNSResolution
  | DNSEmpty
  | TCPConnect
  | TooManyTxns
  | WaitParameterError
  | MaxRetriesError
  | SerializeError
  | GRPCError
  | SendError
deriving DecidableEq, Repr

/-- Result alias from src/errors.rs. -/
abbrev JitoClientResult (α : Type) := Except JitoClientError α

/-- Opaque pre-signed transaction. The core never inspects it beyond calling
bincode::serialize, so it is modelled by that call's outcome: some bytes
(its canonical serialization) or none (serialization fails). -/
structure VersionedTransaction where
  ser : Option (List Nat)
deriving DecidableEq, Repr

/-- Model of bincode::serialize(&txn) with the From conversion into
JitoClientError::SerializeError from src/errors.rs. -/
def bincodeSerialize (t : VersionedTransaction) : JitoClientResult (List Nat) :=
  match t.ser with
  | some bs => .ok bs
  | none => .error .SerializeError

/-- Packet metadata (proto Meta message as populated in src/bundle.rs). -/
structure Meta where
  size : Nat
  addr : String
  port : Nat
  flags : Option Unit
  sender_stake : Nat
deriving DecidableEq, Repr

/-- Wire packet (proto Packet message). -/
structure Packet where
  data : List Nat
  meta : Option Meta
deriving DecidableEq, Repr

/-- Bundle payload (proto Bundle message); the header type is opaque here
because src/bundle.rs only ever stores None in it. -/
structure Bundle where
  header : Option Unit
  packets : List Packet
deriving DecidableEq, Repr

/-- TXNS_LIMIT constant from src/bundle.rs. -/
def TXNS_LIMIT : Nat := 5

/-- The packet built in the loop body of Bundle::serialize: data plus the
fixed metadata (size = data.len() as u64 — lossless since the byte length
fits u64, addr "0.0.0.0", port 0, flags None, sender_stake 0). -/
def packetOf (data : List Nat) : Packet :=
  { data := data
    meta := some { size := data.length, addr := "0.0.0.0", port := 0,
                   flags := none, sender_stake := 0 } }

/-- Bundle::serialize from src/bundle.rs: serialize each transaction in input
order into a Packet; the first serialization failure aborts the whole build. -/
def Bundle.serialize : List VersionedTransaction → JitoClientResult (List Packet)
  | [] => .ok []
  | txn :: rest =>
    match bincodeSerialize txn with
    | .error e => .error e
    | .ok data =>
      match Bundle.serialize rest with
      | .error e => .error e
      | .ok ps => .ok (packetOf data :: ps)

/-- Bundle::create from src/bundle.rs: reject more than TXNS_LIMIT
transactions, otherwise build the packet list and wrap it with no header. -/
def Bundle.create (txns : List VersionedTransaction) : JitoClientResult Bundle :=
  if txns.length > TXNS_LIMIT then .error .TooManyTxns
  else
    match Bundle.serialize txns with
    | .error e => .error e
    | .ok ps => .ok { header := none, packets := ps }

/-- Instrumented Bundle::serialize: same result, paired with the number of
bincode::serialize calls the loop performs (one per iteration reached). -/
def Bundle.serializeCounting :
    List VersionedTransaction → JitoClientResult (List Packet) × Nat
  | [] => (.ok [], 0)
  | txn :: rest =>
    match bincodeSerialize txn with
    | .error e => (.error e, 1)
    | .ok data =>
      match Bundle.serializeCounting rest with
      | (.error e, n) => (.error e, n + 1)
      | (.ok ps, n) => (.ok (packetOf data :: ps), n + 1)

/-- Instrumented Bundle::create: the length precondition is checked before
any serialization work, so the over-limit branch performs zero calls. -/
def Bundle.createCounting (txns : List VersionedTransaction) :
    JitoClientResult Bundle × Nat :=
  if txns.length > TXNS_LIMIT then (.error .TooManyTxns, 0)
  else
    match Bundle.serializeCounting txns with
    | (.error e, n) => (.error e, n)
    | (.ok ps, n) => (.ok { header := none, packets := ps }, n)

/-- Region enumeration from src/nodes.rs. -/
inductive NodeRegion where
  | AM | DB | FRA | LN | NY | SLC | SG | TOK
deriving DecidableEq, Repr

/-- The ALL constant from src/nodes.rs: the 8-entry catalog in source order. -/
def NodeRegion.ALL : List NodeRegion :=
  [.AM, .DB, .FRA, .LN, .NY, .SLC, .SG, .TOK]

/-- The collection loop of measure_latency: keep the (region, duration) pairs
of the probes that succeeded, in collection order. -/
def collectSuccessful : List (NodeRegion × Option Nat) → List (NodeRegion × Nat)
  | [] => []
  | (r, some d) :: rest => (r, d) :: collectSuccessful rest
  | (_, none) :: rest => collectSuccessful rest

/-- The minimum-selection loop of measure_latency: fold over the successful
pings, replacing the current best only on a strictly smaller duration. -/
def selectFastest (acc : Option (NodeRegion × Nat)) :
    List (NodeRegion × Nat) → Option (NodeRegion × Nat)
  | [] => acc
  | (r, d) :: rest =>
    match acc with
    | none => selectFastest (some (r, d)) rest
    | some (r0, d0) =>
      if d < d0 then selectFastest (some (r, d)) rest
      else selectFastest (some (r0, d0)) rest

/-- NodeRegion::measure_latency from src/nodes.rs, with the joined probe
outcomes supplied as an oracle: ping r = some d means region r's probe
succeeded with elapsed duration d, none means it failed. Durations are in
the same total order as Rust Duration. -/
def NodeRegion.measure_latency (ping : NodeRegion → Option Nat) :
    JitoClientResult (NodeRegion × Nat) :=
  let results := NodeRegion.ALL.map fun r => (r, ping r)
  let successful := collectSuccessful results
  match selectFastest none successful with
  | some p => .ok p
  | none => .error .AllRegionLatencyMissing

/-- RetryLogic from src/client.rs. max_retries is a u8 in the source; a Nat
is used here and every claim instantiates it within the u8 range, where the
loop arithmetic below never overflows a u8. -/
structure RetryLogic where
  max_retries : Nat
  min_wait : Nat
  max_wait : Nat
deriving DecidableEq, Repr

/-- RetryLogic::new from src/client.rs: default jitter bounds 5/25, no check
on max_retries. -/
def RetryLogic.new (max_retries : Nat) : RetryLogic :=
  { max_retries := max_retries, min_wait := 5, max_wait := 25 }

/-- RetryLogic::new_with_wait_bounds from src/client.rs: reject inverted or
equal bounds before constructing. -/
def RetryLogic.new_with_wait_bounds (max_retries min_wait max_wait : Nat) :
    JitoClientResult RetryLogic :=
  if min_wait ≥ max_wait then .error .WaitParameterError
  else .ok { max_retries := max_retries, min_wait := min_wait, max_wait := max_wait }

/-- Model of rand::random_range(lo..=hi) from the external rand crate: an
entropy draw reduced into the inclusive range. Every value of the range is
reached as entropy varies, and no value outside it ever is. -/
def random_range (lo hi entropy : Nat) : Nat :=
  lo + entropy % (hi - lo + 1)

/-- RetryLogic::jitter from src/client.rs: a millisecond delay drawn by
rand::random_range(min_wait..=max_wait). Its only inputs are the configured
bounds and the entropy draw — the attempt number is not an input. -/
def RetryLogic.jitter (rl : RetryLogic) (entropy : Nat) : Nat :=
  random_range rl.min_wait rl.max_wait entropy

/-- The retry loop of JitoClient::send_with_retry from src/client.rs. The
mock channel ch gives attempt i's outcome (the request is the same bundle on
every attempt, so outcomes are indexed by attempt alone): some uuid is an Ok
response, none an Err. retries is the loop counter, 0 at entry. Returns the
loop's result paired with the number of RPC attempts performed. -/
def sendLoop (ch : Nat → Option String) (mr : Nat) (retries : Nat) :
    JitoClientResult String × Nat :=
  match ch retries with
  | some uuid => (.ok uuid, retries + 1)
  | none =>
    if h : retries + 1 ≥ mr then (.error .MaxRetriesError, retries + 1)
    else sendLoop ch mr (retries + 1)
termination_by mr - retries
decreasing_by omega

/-- JitoClient::send_with_retry from src/client.rs: build the bundle once;
on build failure propagate it with zero RPC attempts, otherwise enter the
retry loop with the counter at 0. -/
def send_with_retry (txns : List VersionedTransaction) (rl : RetryLogic)
    (ch : Nat → Option String) : JitoClientResult String × Nat :=
  match Bundle.create txns with
  | .error e => (.error e, 0)
  | .ok _ => sendLoop ch rl.max_retries 0

/-- Helper: when every transaction serializes, Bundle.serialize succeeds and
produces one packetOf per transaction, positionally. -/
theorem serialize_ok_spec (txns : List VersionedTransaction)
    (hser : ∀ t ∈ txns, t.ser.isSome) :
    ∃ ps : List Packet, Bundle.serialize txns = .ok ps ∧
      ps.length = txns.length ∧
      ∀ (i : Nat) (hi : i < txns.length) (hp : i < ps.length),
        ∃ bs, (txns.get ⟨i, hi⟩).ser = some bs ∧ ps.get ⟨i, hp⟩ = packetOf bs := by
  induction txns with
  | nil =>
    refine ⟨[], rfl, rfl, ?_⟩
    intro i hi hp
    simp at hi
  | cons t rest ih =>
    have ht : t.ser.isSome := hser t (List.mem_cons_self t rest)
    obtain ⟨bs, hbs⟩ := Option.isSome_iff_exists.mp ht
    obtain ⟨ps, hps, hlen, hidx⟩ := ih (fun x hx => hser x (List.mem_cons_of_mem _ hx))
    refine ⟨packetOf bs :: ps, ?_, by simp [hlen], ?_⟩
    · simp [Bundle.serialize, bincodeSerialize, hbs, hps]
    · intro i hi hp
      cases i with
      | zero => exact ⟨bs, hbs, rfl⟩
      | succ j =>
        obtain ⟨bs, h1, h2⟩ := hidx j (by simpa using hi) (by simpa using hp)
        exact ⟨bs, h1, h2⟩

/-- C1: for every transaction sequence of length at most 5 in which every
transaction serializes successfully, Bundle::create returns a Bundle whose
header is unset and whose packet list has exactly one packet per input
transaction, in input order, each packet holding its transaction's
serialized bytes and the metadata {size = byte length, addr "0.0.0.0",
port 0, flags unset, sender stake 0}. -/
theorem bundle_create_small_ok (txns : List VersionedTransaction)
    (h5 : txns.length ≤ 5) (hser : ∀ t ∈ txns, t.ser.isSome) :
    ∃ ps : List Packet,
      Bundle.create txns = .ok { header := none, packets := ps } ∧
      ps.length = txns.length ∧
      ∀ (i : Nat) (hi : i < txns.length) (hp : i < ps.length),
        ∃ bs, (txns.get ⟨i, hi⟩).ser = some bs ∧
          ps.get ⟨i, hp⟩ =
            { data := bs
              meta := some { size := bs.length, addr := "0.0.0.0", port := 0,
                             flags := none, sender_stake := 0 } } := by
  obtain ⟨ps, hps, hlen, hidx⟩ := serialize_ok_spec txns hser
  refine ⟨ps, ?_, hlen, ?_⟩
  · simp [Bundle.create, TXNS_LIMIT, Nat.not_lt.mpr h5, hps]
  · intro i hi hp
    obtain ⟨bs, h1, h2⟩ := hidx i hi hp
    exact ⟨bs, h1, by rw [h2]; rfl⟩

/-- Witness for C1 at a concrete two-transaction input. -/
theorem bundle_create_small_ok_witness :
    ∃ ps : List Packet,
      Bundle.create [⟨some [7]⟩, ⟨some []⟩] = .ok { header := none, packets := ps } ∧
      ps.length = ([⟨some [7]⟩, ⟨some []⟩] : List VersionedTransaction).length ∧
      ∀ (i : Nat) (hi : i < ([⟨some [7]⟩, ⟨some []⟩] : List VersionedTransaction).length)
        (hp : i < ps.length),
        ∃ bs, (([⟨some [7]⟩, ⟨some []⟩] : List VersionedTransaction).get ⟨i, hi⟩).ser = some bs ∧
          ps.get ⟨i, hp⟩ =
            { data := bs
              meta := some { size := bs.length, addr := "0.0.0.0", port := 0,
                             flags := none, sender_stake := 0 } } :=
  bundle_create_small_ok [⟨some [7]⟩, ⟨some []⟩] (by decide) (by decide)

/-- C4: for every transaction sequence of length strictly greater than 5,
Bundle::create fails immediately with TooManyTxns, and the instrumented
build performs zero serialization calls and yields no partial bundle. -/
theorem bundle_create_too_many (txns : List VersionedTransaction)
    (h : txns.length > 5) :
    Bundle.create txns = .error .TooManyTxns ∧
    Bundle.createCounting txns = (.error .TooManyTxns, 0) := by
  constructor <;> simp [Bundle.create, Bundle.createCounting, TXNS_LIMIT, h]

/-- Witness for C4 at a concrete six-transaction input (all of which would
even fail to serialize, showing serialization is never consulted). -/
theorem bundle_create_too_many_witness :
    Bundle.create [⟨none⟩, ⟨none⟩, ⟨none⟩, ⟨none⟩, ⟨none⟩, ⟨none⟩] =
      .error .TooManyTxns ∧
    Bundle.createCounting [⟨none⟩, ⟨none⟩, ⟨none⟩, ⟨none⟩, ⟨none⟩, ⟨none⟩] =
      (.error .TooManyTxns, 0) :=
  bundle_create_too_many [⟨none⟩, ⟨none⟩, ⟨none⟩, ⟨none⟩, ⟨none⟩, ⟨none⟩] (by decide)

/-- Helper: a single failing serialization aborts Bundle.serialize with
SerializeError. -/
theorem serialize_fail (txns : List VersionedTransaction)
    (hbad : ∃ t ∈ txns, t.ser = none) :
    Bundle.serialize txns = .error .SerializeError := by
  induction txns with
  | nil => simp at hbad
  | cons t rest ih =>
    obtain ⟨x, hx, hxser⟩ := hbad
    rcases List.mem_cons.mp hx with h | h
    · subst h
      simp [Bundle.serialize, bincodeSerialize, hxser]
    · cases ht : t.ser with
      | none => simp [Bundle.serialize, bincodeSerialize, ht]
      | some bs => simp [Bundle.serialize, bincodeSerialize, ht, ih ⟨x, h, hxser⟩]

/-- C5: for every transaction sequence of length at most 5, if any single
transaction fails to serialize, Bundle::create fails with SerializeError for
the whole build and returns no partial result. -/
theorem bundle_create_serialize_failure (txns : List VersionedTransaction)
    (h5 : txns.length ≤ 5) (hbad : ∃ t ∈ txns, t.ser = none) :
    Bundle.create txns = .error .SerializeError := by
  simp [Bundle.create, TXNS_LIMIT, Nat.not_lt.mpr h5, serialize_fail txns hbad]

/-- Witness for C5: a sequence whose first transaction serializes and whose
second fails; the whole build fails. -/
theorem bundle_create_serialize_failure_witness :
    Bundle.create [⟨some [1]⟩, ⟨none⟩] = .error .SerializeError :=
  bundle_create_serialize_failure [⟨some [1]⟩, ⟨none⟩] (by decide)
    ⟨⟨none⟩, by decide, rfl⟩

/-- C6: for every pair of bounds with min_wait >= max_wait and every max
attempt count, RetryLogic::new_with_wait_bounds fails with
WaitParameterError and no configuration value is produced. -/
theorem new_with_wait_bounds_invalid (max_retries min_wait max_wait : Nat)
    (h : min_wait ≥ max_wait) :
    RetryLogic.new_with_wait_bounds max_retries min_wait max_wait =
      .error .WaitParameterError := by
  simp [RetryLogic.new_with_wait_bounds, h]

/-- Witness for C6 at equal bounds 10/10. -/
theorem new_with_wait_bounds_invalid_witness :
    RetryLogic.new_with_wait_bounds 3 10 10 = .error .WaitParameterError :=
  new_with_wait_bounds_invalid 3 10 10 (by decide)

/-- C7: for every retry configuration with min_wait strictly less than
max_wait, every value jitter can return lies in the inclusive range
[min_wait, max_wait] milliseconds, for every entropy draw. The sampled
range cannot depend on the attempt number because jitter's only inputs are
the configured bounds and the draw — the attempt number is not an input, so
every attempt draws from the same fixed range. -/
theorem jitter_within_bounds (rl : RetryLogic) (h : rl.min_wait < rl.max_wait) :
    ∀ entropy : Nat,
      rl.min_wait ≤ rl.jitter entropy ∧ rl.jitter entropy ≤ rl.max_wait := by
  intro e
  unfold RetryLogic.jitter random_range
  have h1 : e % (rl.max_wait - rl.min_wait + 1) < rl.max_wait - rl.min_wait + 1 :=
    Nat.mod_lt _ (Nat.succ_pos _)
  omega

/-- Witness for C7 at the default bounds 5/25 and entropy 37. -/
theorem jitter_within_bounds_witness :
    5 ≤ (RetryLogic.new 3).jitter 37 ∧ (RetryLogic.new 3).jitter 37 ≤ 25 :=
  jitter_within_bounds (RetryLogic.new 3) (by decide) 37

/-- Counterexample to C8: RetryLogic::new(0) constructs a configuration
whose max attempt count is 0 — the attempt-count-only constructor performs
no lower-bound check, refuting the claim that no constructor produces a
configuration with max attempt count 0. -/
theorem retry_new_zero_counterexample : (RetryLogic.new 0).max_retries = 0 :=
  rfl

/-- C8 amended: the constructors do not enforce a minimum attempt count.
RetryLogic::new m returns the configuration with max_retries = m unchanged
(with the default 5/25 jitter bounds) for every m, including m = 0. -/
theorem retry_new_no_minimum (m : Nat) :
    RetryLogic.new m = { max_retries := m, min_wait := 5, max_wait := 25 } :=
  rfl

/-- Helper: against an always-failing channel, the retry loop entered with
counter r strictly below mr exits with MaxRetriesError after mr attempts. -/
theorem sendLoop_allFail (mr : Nat) : ∀ r, r < mr →
    sendLoop (fun _ => none) mr r = (.error .MaxRetriesError, mr) := by
  have key : ∀ k r, mr - r ≤ k → r < mr →
      sendLoop (fun _ => none) mr r = (.error .MaxRetriesError, mr) := by
    intro k
    induction k with
    | zero => intro r hk hr; omega
    | succ n ih =>
      intro r hk hr
      rw [sendLoop]
      dsimp only
      by_cases h : r + 1 ≥ mr
      · rw [dif_pos h]
        have hmr : r + 1 = mr := by omega
        rw [hmr]
      · rw [dif_neg h]
        exact ih (r + 1) (by omega) (by omega)
  intro r hr
  exact key (mr - r) r (Nat.le_refl _) hr

/-- C2: for every retry configuration with max_retries = 3 and every
transaction sequence that builds successfully, send_with_retry against a
channel that fails on the first two attempts and succeeds on the third
returns that success after exactly 3 RPC attempts; against an always-failing
channel it returns MaxRetriesError after exactly 3 RPC attempts, never
making a 4th. -/
theorem send_with_retry_three (txns : List VersionedTransaction) (b : Bundle)
    (rl : RetryLogic) (ch : Nat → Option String)
    (hb : Bundle.create txns = .ok b) (hm : rl.max_retries = 3) :
    (∀ s, ch 0 = none → ch 1 = none → ch 2 = some s →
      send_with_retry txns rl ch = (.ok s, 3)) ∧
    ((∀ n, ch n = none) →
      send_with_retry txns rl ch = (.error .MaxRetriesError, 3)) := by
  constructor
  · intro s h0 h1 h2
    simp only [send_with_retry, hb, hm]
    rw [sendLoop]
    rw [h0]
    dsimp only
    rw [dif_neg (by omega)]
    rw [sendLoop]
    rw [h1]
    dsimp only
    rw [dif_neg (by omega)]
    rw [sendLoop]
    rw [h2]
  · intro hall
    simp only [send_with_retry, hb, hm]
    have hch : ch = fun _ => none := funext hall
    rw [hch]
    exact sendLoop_allFail 3 0 (by omega)

/-- Witness for C2: a one-transaction bundle, one channel succeeding on the
third attempt and one never succeeding. -/
theorem send_with_retry_three_witness :
    send_with_retry [⟨some [2]⟩] (RetryLogic.new 3)
      (fun n => if n = 2 then some "uuid" else none) = (.ok "uuid", 3) ∧
    send_with_retry [⟨some [2]⟩] (RetryLogic.new 3) (fun _ => none) =
      (.error .MaxRetriesError, 3) := by
  constructor
  · exact (send_with_retry_three [⟨some [2]⟩] _ (RetryLogic.new 3)
      (fun n => if n = 2 then some "uuid" else none) rfl rfl).1 "uuid" rfl rfl rfl
  · exact (send_with_retry_three [⟨some [2]⟩] _ (RetryLogic.new 3)
      (fun _ => none) rfl rfl).2 (fun _ => rfl)

/-- C10: a retry configuration constructed with max attempt count 0 (which
RetryLogic::new accepts) still yields exactly one RPC attempt: success on
the first attempt returns the identifier, and a first-attempt failure
returns MaxRetriesError without retrying. In general, against an
always-failing channel the loop performs exactly max(max_retries, 1)
attempts before returning MaxRetriesError. -/
theorem send_with_retry_zero_retries (txns : List VersionedTransaction)
    (b : Bundle) (ch : Nat → Option String) (hb : Bundle.create txns = .ok b) :
    (∀ rl : RetryLogic, rl.max_retries = 0 →
      (∀ s, ch 0 = some s → send_with_retry txns rl ch = (.ok s, 1)) ∧
      (ch 0 = none → send_with_retry txns rl ch = (.error .MaxRetriesError, 1))) ∧
    (∀ rl : RetryLogic,
      send_with_retry txns rl (fun _ => none) =
        (.error .MaxRetriesError, Nat.max rl.max_retries 1)) := by
  constructor
  · intro rl hm
    constructor
    · intro s h0
      simp only [send_with_retry, hb, hm]
      rw [sendLoop]
      rw [h0]
    · intro h0
      simp only [send_with_retry, hb, hm]
      rw [sendLoop]
      rw [h0]
      dsimp only
      rw [dif_pos (by omega)]
  · intro rl
    simp only [send_with_retry, hb]
    rcases Nat.eq_zero_or_pos rl.max_retries with h | h
    · rw [h]
      rw [sendLoop]
      dsimp only
      rw [dif_pos (by omega)]
      have hmax : Nat.max 0 1 = 0 + 1 := by decide
      rw [hmax]
    · rw [sendLoop_allFail rl.max_retries 0 h]
      have h1 : (1 : Nat) ≤ rl.max_retries := by omega
      have hmax : Nat.max rl.max_retries 1 = rl.max_retries := Nat.max_eq_left h1
      rw [hmax]

/-- Witness for C10: one-transaction bundle; a succeeding and a failing
channel under max_retries = 0, and an always-failing channel under
max_retries = 4. -/
theorem send_with_retry_zero_retries_witness :
    send_with_retry [⟨some [3]⟩] (RetryLogic.new 0) (fun _ => some "ok") =
      (.ok "ok", 1) ∧
    send_with_retry [⟨some [3]⟩] (RetryLogic.new 0) (fun _ => none) =
      (.error .MaxRetriesError, 1) ∧
    send_with_retry [⟨some [3]⟩] (RetryLogic.new 4) (fun _ => none) =
      (.error .MaxRetriesError, 4) := by
  refine ⟨?_, ?_, ?_⟩
  · exact ((send_with_retry_zero_retries [⟨some [3]⟩] _ (fun _ => some "ok")
      rfl).1 (RetryLogic.new 0) rfl).1 "ok" rfl
  · exact ((send_with_retry_zero_retries [⟨some [3]⟩] _ (fun _ => none)
      rfl).1 (RetryLogic.new 0) rfl).2 rfl
  · have h := (send_with_retry_zero_retries [⟨some [3]⟩] _ (fun _ => none)
      rfl).2 (RetryLogic.new 4)
    simpa using h

/-- Helper: the minimum-selection fold never drops a some accumulator. -/
theorem selectFastest_isSome (l : List (NodeRegion × Nat)) :
    ∀ a : NodeRegion × Nat, (selectFastest (some a) l).isSome := by
  induction l with
  | nil => intro a; rfl
  | cons x rest ih =>
    intro a
    obtain ⟨r, d⟩ := x
    obtain ⟨r0, d0⟩ := a
    by_cases h : d < d0
    · simpa [selectFastest, h] using ih (r, d)
    · simpa [selectFastest, h] using ih (r0, d0)

/-- Helper: accumulator characterization of the minimum-selection fold. The
result is either the accumulator itself (no strictly smaller entry follows)
or the first list entry strictly below the accumulator that no later entry
strictly undercuts. -/
theorem selectFastest_acc (l : List (NodeRegion × Nat)) :
    ∀ a p, selectFastest (some a) l = some p →
      (p = a ∧ ∀ q ∈ l, a.2 ≤ q.2) ∨
      (∃ pre post, l = pre ++ p :: post ∧ p.2 < a.2 ∧
        (∀ q ∈ pre, p.2 < q.2) ∧ (∀ q ∈ post, p.2 ≤ q.2)) := by
  induction l with
  | nil =>
    intro a p h
    simp only [selectFastest, Option.some.injEq] at h
    left
    exact ⟨h.symm, by simp⟩
  | cons x rest ih =>
    intro a p h
    obtain ⟨r, d⟩ := x
    obtain ⟨r0, d0⟩ := a
    simp only [selectFastest] at h
    by_cases hd : d < d0
    · rw [if_pos hd] at h
      rcases ih (r, d) p h with ⟨hp, hle⟩ | ⟨pre, post, heq, hlt, hpre, hpost⟩
      · right
        subst hp
        exact ⟨[], rest, by simp, hd, by simp, hle⟩
      · right
        refine ⟨(r, d) :: pre, post, by simp [heq], lt_trans hlt hd, ?_, hpost⟩
        intro q hq
        rcases List.mem_cons.mp hq with h1 | h1
        · subst h1; exact hlt
        · exact hpre q h1
    · rw [if_neg hd] at h
      rcases ih (r0, d0) p h with ⟨hp, hle⟩ | ⟨pre, post, heq, hlt, hpre, hpost⟩
      · left
        subst hp
        refine ⟨rfl, ?_⟩
        intro q hq
        rcases List.mem_cons.mp hq with h1 | h1
        · subst h1; exact Nat.le_of_not_lt hd
        · exact hle q h1
      · right
        refine ⟨(r, d) :: pre, post, by simp [heq], hlt, ?_, hpost⟩
        intro q hq
        rcases List.mem_cons.mp hq with h1 | h1
        · subst h1
          exact lt_of_lt_of_le hlt (Nat.le_of_not_lt hd)
        · exact hpre q h1

/-- Helper: a some result of the fold started empty is the first entry of
the list strictly smaller than everything before it and no greater than
everything after it — the first occurrence of the minimum. -/
theorem selectFastest_none_spec (l : List (NodeRegion × Nat))
    (p : NodeRegion × Nat) (h : selectFastest none l = some p) :
    ∃ pre post, l = pre ++ p :: post ∧
      (∀ q ∈ pre, p.2 < q.2) ∧ (∀ q ∈ post, p.2 ≤ q.2) := by
  cases l with
  | nil => simp [selectFastest] at h
  | cons x rest =>
    obtain ⟨r, d⟩ := x
    simp only [selectFastest] at h
    rcases selectFastest_acc rest (r, d) p h with ⟨hp, hle⟩ | ⟨pre, post, heq, hlt, hpre, hpost⟩
    · subst hp
      exact ⟨[], rest, by simp, by simp, hle⟩
    · refine ⟨(r, d) :: pre, post, by simp [heq], ?_, hpost⟩
      intro q hq
      rcases List.mem_cons.mp hq with h1 | h1
      · subst h1; exact hlt
      · exact hpre q h1

/-- Helper: the fold started empty returns none only on the empty list. -/
theorem selectFastest_none_eq_none (l : List (NodeRegion × Nat))
    (h : selectFastest none l = none) : l = [] := by
  cases l with
  | nil => rfl
  | cons x rest =>
    obtain ⟨r, d⟩ := x
    simp only [selectFastest] at h
    have hs := selectFastest_isSome rest (r, d)
    rw [h] at hs
    simp at hs

/-- Helper: the collection loop yields the empty list exactly when every
probe outcome in its input failed. -/
theorem collectSuccessful_eq_nil (l : List (NodeRegion × Option Nat)) :
    collectSuccessful l = [] ↔ ∀ p ∈ l, p.2 = none := by
  induction l with
  | nil => simp [collectSuccessful]
  | cons x rest ih =>
    obtain ⟨r, o⟩ := x
    cases o with
    | none => simp [collectSuccessful, ih]
    | some d => simp [collectSuccessful]

/-- Helper: membership in the collected successes matches the probe
outcomes. -/
theorem collectSuccessful_mem (l : List (NodeRegion × Option Nat))
    (r : NodeRegion) (d : Nat) :
    (r, d) ∈ collectSuccessful l ↔ (r, some d) ∈ l := by
  induction l with
  | nil => simp [collectSuccessful]
  | cons x rest ih =>
    obtain ⟨r0, o⟩ := x
    cases o with
    | none => simp [collectSuccessful, ih]
    | some d0 => simp [collectSuccessful, ih, Prod.mk.injEq]

/-- C3: measure_latency fails with AllRegionLatencyMissing exactly when
zero probes of the 8-region catalog succeeded; otherwise it returns a
region whose probe succeeded with the strictly smallest measured duration
together with that duration, and among regions tied for the smallest
duration it returns the one encountered first during result collection. -/
theorem measure_latency_spec (ping : NodeRegion → Option Nat) :
    (NodeRegion.measure_latency ping = .error .AllRegionLatencyMissing ↔
      ∀ r ∈ NodeRegion.ALL, ping r = none) ∧
    ((¬ ∀ r ∈ NodeRegion.ALL, ping r = none) →
      ∃ p, NodeRegion.measure_latency ping = .ok p) ∧
    (∀ w dw, NodeRegion.measure_latency ping = .ok (w, dw) →
      ping w = some dw ∧
      (∀ r d, r ∈ NodeRegion.ALL → ping r = some d → dw ≤ d) ∧
      ∃ pre post,
        collectSuccessful (NodeRegion.ALL.map fun r => (r, ping r)) =
          pre ++ (w, dw) :: post ∧
        (∀ q ∈ pre, dw < q.2) ∧ (∀ q ∈ post, dw ≤ q.2)) := by
  have hml : NodeRegion.measure_latency ping =
      (match selectFastest none
          (collectSuccessful (NodeRegion.ALL.map fun r => (r, ping r))) with
        | some p => Except.ok p
        | none => Except.error JitoClientError.AllRegionLatencyMissing) := rfl
  have hnil : collectSuccessful (NodeRegion.ALL.map fun r => (r, ping r)) = [] ↔
      ∀ r ∈ NodeRegion.ALL, ping r = none := by
    rw [collectSuccessful_eq_nil]
    constructor
    · intro h r hr
      exact h (r, ping r) (List.mem_map_of_mem _ hr)
    · intro h q hq
      obtain ⟨r, hr, rfl⟩ := List.mem_map.mp hq
      exact h r hr
  rw [hml]
  cases hsel : selectFastest none
      (collectSuccessful (NodeRegion.ALL.map fun r => (r, ping r))) with
  | none =>
    have hempty := selectFastest_none_eq_none _ hsel
    refine ⟨?_, ?_, ?_⟩
    · constructor
      · intro _
        exact hnil.mp hempty
      · intro _
        rfl
    · intro hcon
      exact absurd (hnil.mp hempty) hcon
    · intro w dw h
      simp at h
  | some p =>
    obtain ⟨pre, post, heq, hpre, hpost⟩ := selectFastest_none_spec _ p hsel
    refine ⟨?_, fun _ => ⟨p, rfl⟩, ?_⟩
    · constructor
      · intro h
        simp at h
      · intro hall
        exfalso
        have h0 : collectSuccessful (NodeRegion.ALL.map fun r => (r, ping r)) = [] :=
          hnil.mpr hall
        rw [h0] at hsel
        simp [selectFastest] at hsel
    · intro w dw h
      have hpw : p = (w, dw) := by simpa using h
      subst hpw
      have hmem : (w, dw) ∈
          collectSuccessful (NodeRegion.ALL.map fun r => (r, ping r)) := by
        rw [heq]
        simp
      have hping : ping w = some dw := by
        have hm := (collectSuccessful_mem _ w dw).mp hmem
        obtain ⟨r, hr, hEq⟩ := List.mem_map.mp hm
        simp only [Prod.mk.injEq] at hEq
        obtain ⟨h1, h2⟩ := hEq
        subst h1
        exact h2
      refine ⟨hping, ?_, pre, post, heq, hpre, hpost⟩
      intro r d hr hd
      have hmem2 : (r, d) ∈
          collectSuccessful (NodeRegion.ALL.map fun r => (r, ping r)) := by
        refine (collectSuccessful_mem _ r d).mpr ?_
        refine List.mem_map.mpr ⟨r, hr, ?_⟩
        rw [hd]
      rw [heq] at hmem2
      rcases List.mem_append.mp hmem2 with hq | hq
      · exact Nat.le_of_lt (hpre (r, d) hq)
      · rcases List.mem_cons.mp hq with h1 | h1
        · simp only [Prod.mk.injEq] at h1
          rw [h1.2]
        · exact hpost (r, d) h1

/-- Witness for C3: a probe outcome where New York and Singapore tie at 10
and every other region fails; New York comes first in collection order and
is returned. -/
theorem measure_latency_spec_witness :
    (fun r => if r = NodeRegion.NY ∨ r = NodeRegion.SG
      then (some 10 : Option Nat) else none) NodeRegion.NY = some 10 ∧
    (∀ r d, r ∈ NodeRegion.ALL →
      (fun r => if r = NodeRegion.NY ∨ r = NodeRegion.SG
        then (some 10 : Option Nat) else none) r = some d → 10 ≤ d) ∧
    ∃ pre post,
      collectSuccessful (NodeRegion.ALL.map fun r =>
        (r, (fun r => if r = NodeRegion.NY ∨ r = NodeRegion.SG
          then (some 10 : Option Nat) else none) r)) =
        pre ++ (NodeRegion.NY, 10) :: post ∧
      (∀ q ∈ pre, 10 < q.2) ∧ (∀ q ∈ post, 10 ≤ q.2) :=
  (measure_latency_spec (fun r => if r = NodeRegion.NY ∨ r = NodeRegion.SG
    then (some 10 : Option Nat) else none)).2.2 NodeRegion.NY 10 (by rfl)

end JitoGrpcClient
